import Mathlib

/-!
Verification of the application-catalog parser core of the
Self-Hosted-Docker-Deployer repository.

The Python sources embedded here are:
  src/easy_docker_deploy/parser/github_parser.py    (namespace `GH`)
  src/easy_docker_deploy/parser/markdown_parser.py  (namespaces `MDG` for the
      `GithubParser` class of that module, `MP` for `MarkdownParser`)
  src/easy_docker_deploy/services/parser_service.py (namespace `SVC`)
  src/easy_docker_deploy/utils/caching.py           (`cache_result` TTL check)

Strings are modelled as Lean `String` (a structure holding `List Char`), and
all Python string primitives used by the code (strip, lower, startswith,
endswith, substring containment, split) are re-implemented below with Python
semantics (ASCII case folding; Python truthiness of strings is `s ≠ ""`).
The regular expressions of the source are embedded as executable functions
that follow the backtracking semantics of Python `re` for those exact
patterns.  Network effects (the document fetch and the repository Docker-file
probe) are passed in as explicit parameters: the fetch as an
`Except String String` value, the probe as a `String → Bool` function.
File-system state (the two cache files) is passed as explicit values.
-/

set_option maxRecDepth 8192

namespace EDD

/-! ## Python string primitives -/

/-- Python whitespace class (`str.strip` default / regex `\s`, ASCII part). -/
def chIsSpace (c : Char) : Bool :=
  c = ' ' || c = '\t' || c = '\n' || c = '\r' || c = '\x0b' || c = '\x0c'

/-- ASCII lower-casing of one character, as Python `str.lower` acts on ASCII. -/
def lowerChar (c : Char) : Char :=
  if 'A' ≤ c && c ≤ 'Z' then Char.ofNat (c.toNat + 32) else c

/-- Python `s.lower()` (ASCII fold). -/
def pyLower (s : String) : String := ⟨s.data.map lowerChar⟩

/-- Prefix test on character lists (`startsL pre l` holds when `pre` is a
prefix of `l`); basis for Python `str.startswith`. -/
def startsL : List Char → List Char → Bool
  | [], _ => true
  | _ :: _, [] => false
  | p :: ps, c :: cs => if p = c then startsL ps cs else false

/-- Python `s.startswith(pre)`. -/
def strStartsWith (s pre : String) : Bool := startsL pre.data s.data

/-- Python `s.endswith(suf)`. -/
def strEnds (s suf : String) : Bool := startsL suf.data.reverse s.data.reverse

/-- Substring containment on character lists; `containsL hay needle` is
Python `needle in hay`.  The empty needle is contained in everything. -/
def containsL (hay needle : List Char) : Bool :=
  if startsL needle hay then true
  else
    match hay with
    | [] => false
    | _ :: t => containsL t needle

/-- Python `sub in s`. -/
def strContains (s sub : String) : Bool := containsL s.data sub.data

/-- Drop leading Python whitespace (left part of `str.strip`, regex `\s*`). -/
def trimL (l : List Char) : List Char := l.dropWhile chIsSpace

/-- Python `s.strip()` on a character list. -/
def pyStrip (l : List Char) : List Char :=
  ((l.dropWhile chIsSpace).reverse.dropWhile chIsSpace).reverse

/-- Python `s.strip()`. -/
def strStrip (s : String) : String := ⟨pyStrip s.data⟩

/-- Python `s.rstrip('.')`: remove every trailing period. -/
def rstripDots (s : String) : String :=
  ⟨(s.data.reverse.dropWhile (· = '.')).reverse⟩

/-- Python `s.split('\n')` on a character list. -/
def splitNL : List Char → List (List Char)
  | [] => [[]]
  | c :: cs =>
    if c = '\n' then [] :: splitNL cs
    else
      match splitNL cs with
      | h :: t => (c :: h) :: t
      | [] => [[c]]

/-- Python `content.split('\n')`. -/
def splitLines (s : String) : List String := (splitNL s.data).map String.mk

/-- Python truthiness of a string: nonempty. -/
def pyTruthyS (s : String) : Bool := s ≠ ""

/-- Python truthiness of an optional string (`None` and `""` are falsy). -/
def pyTruthyO : Option String → Bool
  | none => false
  | some s => s ≠ ""

/-- The backtick character (code point 96), written by code to keep the
source free of literal backticks. -/
def backtickChar : Char := Char.ofNat 96

/-! ## Building blocks for the embedded regular expressions -/

/-- Scan up to the first occurrence of delimiter `d`: returns the run of
characters before it and the remainder after it, or `none` when `d` is
absent.  This is the deterministic reading of a greedy `[^d]*` followed by
the literal `d`. -/
def scanTo (d : Char) : List Char → Option (List Char × List Char)
  | [] => none
  | c :: cs =>
    if c = d then some ([], cs)
    else (scanTo d cs).map fun p => (c :: p.1, p.2)

/-- Match a literal character-list prefix, returning the remainder. -/
def chopLit : List Char → List Char → Option (List Char)
  | [], l => some l
  | _ :: _, [] => none
  | p :: ps, c :: cs => if c = p then chopLit ps cs else none

/-- Regex `\s*$`: only whitespace remains. -/
def wsEnd (l : List Char) : Bool := l.all chIsSpace

/-- Regex fragment `` \s*`([^`]+)` `` (a backtick-quoted tag): returns the
captured tag and the remainder. -/
def parseBacktick (l : List Char) : Option (List Char × List Char) :=
  match trimL l with
  | [] => none
  | c :: r =>
    if c = backtickChar then
      match scanTo backtickChar r with
      | some (g, rest) => if g = [] then none else some (g, rest)
      | none => none
    else none

/-- Regex fragment `\s*\[([^\]]+)\]` (a bracket-quoted tag): returns the
captured tag and the remainder. -/
def parseBrack (l : List Char) : Option (List Char × List Char) :=
  match trimL l with
  | [] => none
  | c :: r =>
    if c = '[' then
      match scanTo ']' r with
      | some (g, rest) => if g = [] then none else some (g, rest)
      | none => none
    else none

/-- Regex fragment `\s*\([^)]+\)` (a parenthetical annotation): returns the
remainder after it. -/
def parseParen (l : List Char) : Option (List Char) :=
  match trimL l with
  | [] => none
  | c :: r =>
    if c = '(' then
      match scanTo ')' r with
      | some (g, rest) => if g = [] then none else some rest
      | none => none
    else none

/-- Regex tail `(?:\s*\([^)]+\))?\s*$`: an optional trailing parenthetical
(preferred present, as the greedy `?` tries it first) then whitespace. -/
def parenWsEnd (l : List Char) : Bool :=
  (match parseParen l with
   | some rest => wsEnd rest
   | none => false) || wsEnd l

/-- Regex tail `(?:\s*\[([^\]]+)\])?(?:\s*\([^)]+\))?\s*$` when `br` is true,
`(?:\s*\([^)]+\))?\s*$` when `br` is false: possibly captures a bracketed
license tag.  `none` means no match; `some lic` means match with that
capture.  The optional bracket group is tried present first and backtracks
to absent, following Python `re`. -/
def sufFromBrack (br : Bool) (l : List Char) : Option (Option (List Char)) :=
  if br then
    match parseBrack l with
    | some (lic, rest) =>
      if parenWsEnd rest then some (some lic)
      else if parenWsEnd l then some none
      else none
    | none => if parenWsEnd l then some none else none
  else if parenWsEnd l then some none else none

/-- Regex tail after the lazy description group:
`` (?:\s*`([^`]+)`)?[bracket-part] `` — an optional backtick tag (tried
present first, backtracking to absent) followed by `sufFromBrack br`.
Returns the two captures on a match. -/
def suffixMatch (br : Bool) (l : List Char) :
    Option (Option (List Char) × Option (List Char)) :=
  match parseBacktick l with
  | some (lg, rest) =>
    (match sufFromBrack br rest with
     | some lic => some (some lg, lic)
     | none =>
       match sufFromBrack br l with
       | some lic => some (none, lic)
       | none => none)
  | none =>
    match sufFromBrack br l with
    | some lic => some (none, lic)
    | none => none

/-- Lazy expansion of the description group `(.+?)`: `acc` is the reversed
description consumed so far (nonempty); the shortest extension whose
remainder matches the suffix wins, following Python's lazy `+?`. -/
def descGrow (br : Bool) (acc rest : List Char) :
    Option (List Char × Option (List Char) × Option (List Char)) :=
  match suffixMatch br rest with
  | some (lg, lc) => some (acc.reverse, lg, lc)
  | none =>
    match rest with
    | [] => none
    | c :: rs => descGrow br (c :: acc) rs

/-- Start the lazy description group on a nonempty remainder. -/
def descFrom (br : Bool) : List Char → Option (List Char × Option (List Char) × Option (List Char))
  | [] => none
  | c :: rs => descGrow br [c] rs

/-- The `\s*(.+?)` interplay before the suffix: the greedy `\s*` first takes
all `k = n` leading whitespace characters and on failure gives characters
back one at a time, each time restarting the lazy description group. -/
def tryWs (br : Bool) : Nat → List Char → Option (List Char × Option (List Char) × Option (List Char))
  | k, l =>
    match descFrom br (l.drop k) with
    | some r => some r
    | none =>
      match k with
      | 0 => none
      | k' + 1 => tryWs br k' l

/-- Description-and-tags part `\s*(.+?)(tail)` of the application patterns,
applied to the text after the dash that separates the link from the
description. -/
def descPart (br : Bool) (l : List Char) :
    Option (List Char × Option (List Char) × Option (List Char)) :=
  tryWs br (l.takeWhile chIsSpace).length l

/-- The application-entry regular expression shared (up to the optional
bracket group) by the three parser classes:

`^\s*-\s*\[([^\]]+)\]\(([^)]+)\)\s*-\s*(.+?)(?:\s*`…`)?[\[…\]]?(?:\s*\(…\))?\s*$`

With `br = true` this is `MarkdownParser.parse_application_line`'s pattern
(which has the bracketed license group); with `br = false` it is the
`application_pattern` of the two markdown-module parser classes (no bracket
group).  Returns raw captures `(name, url, description, tag4, tag5)`. -/
def matchApp (br : Bool) (l0 : List Char) :
    Option (List Char × List Char × List Char × Option (List Char) × Option (List Char)) :=
  match trimL l0 with
  | [] => none
  | c :: l1 =>
    if c = '-' then
      match trimL l1 with
      | [] => none
      | c2 :: l3 =>
        if c2 = '[' then
          match scanTo ']' l3 with
          | some (name, l4) =>
            if name = [] then none
            else
              match l4 with
              | [] => none
              | c3 :: l5 =>
                if c3 = '(' then
                  match scanTo ')' l5 with
                  | some (url, l6) =>
                    if url = [] then none
                    else
                      match trimL l6 with
                      | [] => none
                      | c4 :: l7 =>
                        if c4 = '-' then
                          (descPart br l7).map fun r => (name, url, r.1, r.2.1, r.2.2)
                        else none
                  | none => none
                else none
          | none => none
        else none
    else none

/-- The category pattern `^#+\s+(.+?)\s*$` of the markdown-module
`GithubParser` class (line 63): one or more hashes, at least one whitespace
character, then the lazily captured title; the capture carries no trailing
whitespace except in the backtracking corner where the content after the
hashes is whitespace only, in which case the greedy `\s+` gives one
character back to the lazy group. -/
def matchCategoryHash (l : List Char) : Option (List Char) :=
  match l with
  | [] => none
  | c :: r =>
    if c = '#' then
      let rest0 := r.dropWhile (· = '#')
      let ws := rest0.takeWhile chIsSpace
      if ws = [] then none
      else
        let body := rest0.dropWhile chIsSpace
        if body = [] then
          match ws.getLast? with
          | some w => if ws.length ≥ 2 then some [w] else none
          | none => none
        else some (body.reverse.dropWhile chIsSpace).reverse
    else none

/-- The category pattern `^## \[?([^\]]+)\]?` of `MarkdownParser` (line 210):
literal `## `, an optional opening bracket (tried present first, with
backtracking to absent when the bracketed capture would be empty), then a
greedy run of non-`]` characters. -/
def matchCategoryMP (l : List Char) : Option (List Char) :=
  match chopLit ['#', '#', ' '] l with
  | none => none
  | some r =>
    match r with
    | [] => none
    | c :: t =>
      if c = '[' then
        let g := t.takeWhile (· ≠ ']')
        if g = [] then
          let g2 := r.takeWhile (· ≠ ']')
          if g2 = [] then none else some g2
        else some g
      else
        let g := r.takeWhile (· ≠ ']')
        if g = [] then none else some g

/-- The license-line pattern `` ^\s*-\s*`([^`]+)`\s*-\s*\[([^\]]+)\]\(([^)]+)\)\s*$ ``
(markdown module, lines 65 and 214), as a recognizer. -/
def matchLicenseLine (l : List Char) : Bool :=
  match trimL l with
  | [] => false
  | c :: r =>
    if c = '-' then
      match parseBacktick r with
      | none => false
      | some (_, r2) =>
        match trimL r2 with
        | [] => false
        | c2 :: r3 =>
          if c2 = '-' then
            match parseBrack r3 with
            | none => false
            | some (_, r4) =>
              match r4 with
              | [] => false
              | c3 :: r5 =>
                if c3 = '(' then
                  match scanTo ')' r5 with
                  | some (u, r6) => u ≠ [] && wsEnd r6
                  | none => false
                else false
          else false
    else false

/-- The table-of-contents entry pattern `^\s*-\s*\[([^\]]+)\]\(#[^)]+\)\s*$`
(markdown module, lines 66 and 217), as a recognizer. -/
def matchTocLine (l : List Char) : Bool :=
  match trimL l with
  | [] => false
  | c :: r =>
    if c = '-' then
      match parseBrack r with
      | none => false
      | some (_, r2) =>
        match r2 with
        | [] => false
        | c2 :: r3 =>
          if c2 = '(' then
            match r3 with
            | [] => false
            | c3 :: r4 =>
              if c3 = '#' then
                match scanTo ')' r4 with
                | some (g, r5) => g ≠ [] && wsEnd r5
                | none => false
              else false
          else false
    else false

/-! ## Data model (`github_parser.py`) -/

/-- The `Application` dataclass of `github_parser.py` (lines 17-28). -/
structure Application where
  name : String
  description : String
  category : String
  language : Option String
  license_type : Option String
  docker_ready : Bool
  docker_url : Option String
  repository_url : Option String
  deployment_guide : Option String
deriving DecidableEq

/-- The JSON dictionary produced by `Application.to_dict`: a record with the
nine stable field names (lines 30-42). -/
structure AppDict where
  name : String
  description : String
  category : String
  language : Option String
  license_type : Option String
  docker_ready : Bool
  docker_url : Option String
  repository_url : Option String
  deployment_guide : Option String
deriving DecidableEq

/-- `Application.to_dict` (github_parser.py lines 30-42). -/
def Application.to_dict (a : Application) : AppDict :=
  ⟨a.name, a.description, a.category, a.language, a.license_type,
   a.docker_ready, a.docker_url, a.repository_url, a.deployment_guide⟩

/-- `Application.from_dict` (github_parser.py lines 44-57); also the shape of
the `Application(**app_data)` call in `parser_service.py` line 110. -/
def Application.from_dict (d : AppDict) : Application :=
  ⟨d.name, d.description, d.category, d.language, d.license_type,
   d.docker_ready, d.docker_url, d.repository_url, d.deployment_guide⟩

/-- `Application.matches_search` (github_parser.py lines 59-68): the
lower-cased query must be a substring of one of the four searchable fields,
absent or empty fields contributing the empty string. -/
def Application.matches_search (a : Application) (query : String) : Bool :=
  let q := pyLower query
  let fields : List String :=
    [if a.name ≠ "" then pyLower a.name else "",
     if a.description ≠ "" then pyLower a.description else "",
     (match a.language with
      | some s => if s ≠ "" then pyLower s else ""
      | none => ""),
     if a.category ≠ "" then pyLower a.category else ""]
  fields.any fun f => containsL f.data q.data

/-- The `Application` dataclass of `markdown_parser.py` (lines 14-26), used
by the two parser classes of that module. -/
structure MDApplication where
  name : String
  url : String
  description : String
  category : String
  license_info : Option String
  docker_ready : Bool
  repository_url : Option String
  docker_url : Option String
  language : Option String
  license_type : Option String
deriving DecidableEq

namespace GH

/-! ## `github_parser.GithubParser` -/

/-- The Docker keyword list of `GithubParser.__init__`
(github_parser.py lines 88-98). -/
def docker_keywords : List String :=
  ["docker", "container", "docker-compose", "dockerfile", "containerized",
   "docker hub", "docker image", "docker container", "🐳"]

/-- The trailing segment after the last occurrence of `sep`, or the whole
list when `sep` does not occur: Python `s.split(sep)[-1]`.  Fueled by the
input length; each recursive step consumes at least one character. -/
def lastSegAux (sep : List Char) : Nat → List Char → List Char
  | 0, l => l
  | fuel + 1, l =>
    match l with
    | [] => []
    | c :: cs =>
      if startsL sep l then lastSegAux sep fuel (l.drop sep.length)
      else if containsL cs sep then lastSegAux sep fuel cs
      else c :: cs

/-- Python `s.split(sep)[-1]` for a nonempty separator. -/
def lastSeg (sep : List Char) (l : List Char) : List Char :=
  lastSegAux sep l.length l

/-- Python `s.strip('/')`. -/
def stripSlashes (l : List Char) : List Char :=
  ((l.dropWhile (· = '/')).reverse.dropWhile (· = '/')).reverse

/-- The `org_repo` computation of `_extract_docker_url` (github_parser.py
lines 179-181): text after the last `github.com/`, slashes stripped, a
trailing `.git` removed. -/
def orgRepo (url : String) : String :=
  let s := stripSlashes (lastSeg "github.com/".data url.data)
  if startsL ".git".data.reverse s.reverse then ⟨(s.reverse.drop 4).reverse⟩
  else ⟨s⟩

/-- Attempt of the Docker-Hub pattern `hub\.docker\.com/r/([^/\s]+/[^/\s)]+)`
at the head of the input, returning capture group 1. -/
def hubAt (l : List Char) : Option (List Char) :=
  match chopLit "hub.docker.com/r/".data l with
  | none => none
  | some rest =>
    let org := rest.takeWhile fun c => !(c = '/' || chIsSpace c)
    if org = [] then none
    else
      match rest.drop org.length with
      | [] => none
      | c :: r2 =>
        if c = '/' then
          let repo := r2.takeWhile fun c => !(c = '/' || chIsSpace c || c = ')')
          if repo = [] then none else some (org ++ '/' :: repo)
        else none

/-- `re.search` of the Docker-Hub pattern (github_parser.py line 162): scan
left to right, first successful attempt wins. -/
def searchHub : List Char → Option (List Char)
  | [] => none
  | c :: cs =>
    match hubAt (c :: cs) with
    | some r => some r
    | none => searchHub cs

/-- Attempt of the pattern `ghcr\.io/([^/\s]+/[^/\s]+)` at the head of the
input, returning the whole match (group 0). -/
def ghcrAt (l : List Char) : Option (List Char) :=
  match chopLit "ghcr.io/".data l with
  | none => none
  | some rest =>
    let org := rest.takeWhile fun c => !(c = '/' || chIsSpace c)
    if org = [] then none
    else
      match rest.drop org.length with
      | [] => none
      | c :: r2 =>
        if c = '/' then
          let repo := r2.takeWhile fun c => !(c = '/' || chIsSpace c)
          if repo = [] then none
          else some ("ghcr.io/".data ++ org ++ '/' :: repo)
        else none

/-- `re.search` of the GitHub-Container-Registry pattern
(github_parser.py line 167). -/
def searchGhcr : List Char → Option (List Char)
  | [] => none
  | c :: cs =>
    match ghcrAt (c :: cs) with
    | some r => some r
    | none => searchGhcr cs

/-- `GithubParser._extract_docker_url` (github_parser.py lines 159-184).
`probe` stands for the network call `_check_docker_availability`. -/
def extract_docker_url (probe : String → Bool) (description repository_url : String) :
    Option String :=
  match searchHub description.data with
  | some g => some ("https://hub.docker.com/r/" ++ (⟨g⟩ : String))
  | none =>
    match searchGhcr description.data with
    | some whole => some ⟨whole⟩
    | none =>
      if pyTruthyS repository_url && strContains (pyLower repository_url) "dockerfile" then
        some repository_url
      else if pyTruthyS repository_url && probe repository_url then
        (if strContains repository_url "github.com" then
          some ("ghcr.io/" ++ orgRepo repository_url)
         else none)
      else none

/-- `GithubParser._is_docker_ready` (github_parser.py lines 186-205). -/
def is_docker_ready (probe : String → Bool) (description repository_url : String) : Bool :=
  let dl := pyLower description
  if docker_keywords.any (fun k => strContains dl k) then true
  else if (extract_docker_url probe description repository_url).isSome then true
  else if pyTruthyS repository_url && strContains (pyLower repository_url) "dockerfile" then true
  else if pyTruthyS repository_url && probe repository_url then true
  else false

/-- The readiness/URL pair computed for each parsed entry
(github_parser.py lines 239-240): `docker_url` is extracted only when
`docker_ready` is true. -/
def classify (probe : String → Bool) (description repository_url : String) :
    Bool × Option String :=
  let ready := is_docker_ready probe description repository_url
  (ready, if ready then extract_docker_url probe description repository_url else none)

end GH

namespace MP

/-- `MarkdownParser.parse_application_line` (markdown_parser.py lines
335-349): match the five-group application pattern, then
`desc = group(3).strip().rstrip('.')`. -/
def parse_application_line (line : String) :
    Option (String × String × String × Option String × Option String) :=
  (matchApp true line.data).map fun r =>
    (⟨r.1⟩, ⟨r.2.1⟩, rstripDots (strStrip ⟨r.2.2.1⟩),
     r.2.2.2.1.map (fun g => (⟨g⟩ : String)), r.2.2.2.2.map (fun g => (⟨g⟩ : String)))

end MP

namespace GH

/-- Parser loop state of `GithubParser.parse_content` (github_parser.py
lines 207-259): the local `current_category` and the accumulated list. -/
structure PState where
  cur : Option String
  apps : List Application
deriving DecidableEq

/-- The category text of a `###` line (github_parser.py lines 228-231):
`line.lstrip('#').strip()`, with surrounding brackets removed when the text
both starts with `[` and ends with `]`. -/
def categoryOf (t : String) : String :=
  let c : String := ⟨pyStrip (t.data.dropWhile (· = '#'))⟩
  if strStartsWith c "[" && strEnds c "]" then ⟨(c.data.drop 1).dropLast⟩ else c

/-- One iteration of the `GithubParser.parse_content` loop
(github_parser.py lines 222-252). -/
def processLine (probe : String → Bool) (σ : PState) (line : String) : PState :=
  let t := strStrip line
  if t = "" then σ
  else if strStartsWith t "###" then { σ with cur := some (categoryOf t) }
  else if strStartsWith t "- " && pyTruthyO σ.cur then
    match MP.parse_application_line t with
    | some (n, u, d, lg, lc) =>
      let ready := is_docker_ready probe d u
      let durl := if ready then extract_docker_url probe d u else none
      { σ with apps := σ.apps ++
          [⟨n, d, σ.cur.getD "", lg, lc, ready, durl, some u, none⟩] }
    | none => σ
  else σ

/-- Fold of `processLine` over a list of lines. -/
def run (probe : String → Bool) (σ : PState) : List String → PState
  | [] => σ
  | l :: ls => run probe (processLine probe σ l) ls

/-- `GithubParser.parse_content` with `return_dict=False`
(github_parser.py lines 207-259): split on newlines and fold. -/
def parse_content (probe : String → Bool) (content : String) : List Application :=
  (run probe ⟨none, []⟩ (splitLines content)).apps

/-- The number of diagnostic warnings emitted by one call of
`GithubParser.parse_content`: the loop body (github_parser.py lines
219-252) contains no logging or console-warning statement, so every parse
emits zero diagnostics. -/
def parse_diagnostics (probe : String → Bool) (content : String) : Nat :=
  let _ := parse_content probe content
  0

/-- The instance assignment `self.applications = applications` at the end of
`parse_content` (github_parser.py line 255): the stored sequence is replaced
by the fresh parse, whatever was stored before. -/
def parseAndStore (probe : String → Bool) (stored : List Application)
    (content : String) : List Application :=
  let _ := stored
  parse_content probe content

/-- `GithubParser.search_applications` (github_parser.py lines 303-313),
list-state branch. -/
def search_applications (query : String) (apps : List Application) : List Application :=
  apps.filter fun a => a.matches_search query

/-- `GithubParser.get_applications_by_category` (github_parser.py
lines 315-320). -/
def get_applications_by_category (category : String) (apps : List Application) :
    List Application :=
  apps.filter fun a => pyLower a.category = pyLower category

/-- `GithubParser.get_docker_ready_applications` (github_parser.py
lines 322-327). -/
def get_docker_ready_applications (apps : List Application) : List Application :=
  apps.filter fun a => a.docker_ready

/-! ### Scraper cache (github_parser.py lines 100-127) -/

/-- The persisted record of `_save_cache`: a timestamp and the serialized
application dictionaries.  Times are modelled as integers (seconds). -/
structure CacheEntry where
  timestamp : Int
  applications : List AppDict
deriving DecidableEq

/-- `self.cache_expiry = 24 * 60 * 60` (github_parser.py line 84). -/
def cache_expiry : Int := 24 * 60 * 60

/-- `GithubParser._save_cache` (github_parser.py lines 120-127): the record
written to the cache file. -/
def save_cache (now : Int) (applications : List Application) : CacheEntry :=
  ⟨now, applications.map Application.to_dict⟩

/-- `GithubParser._load_cache` (github_parser.py lines 104-118): `none` for
a missing (or, in the source, unreadable) file, `none` when
`now - timestamp > expiry`, otherwise the deserialized applications.  The
source fixes `expiry` to `cache_expiry`; it is a parameter here so that the
validity comparison can be stated for every TTL. -/
def load_cache (expiry now : Int) (cache : Option CacheEntry) :
    Option (List Application) :=
  match cache with
  | none => none
  | some e =>
    if now - e.timestamp > expiry then none
    else some (e.applications.map Application.from_dict)

end GH

namespace MDG

/-! ## `markdown_parser.GithubParser` -/

/-- Description cleanup of the markdown-module parsers (markdown_parser.py
lines 112-114 and 265-267): strip, then remove exactly one trailing
period. -/
def cleanDesc (d : String) : String :=
  let t := strStrip d
  if strEnds t "." then ⟨t.data.dropLast⟩ else t

/-- Docker-readiness of the markdown-module parsers (markdown_parser.py
lines 117-118 and 270-271). -/
def dockerReady (description : String) : Bool :=
  ["docker", "container", "containerized"].any fun k =>
    strContains (pyLower description) k

/-- Membership in the `categories` dictionary. -/
def catsHas (cats : List (String × List MDApplication)) (k : String) : Bool :=
  cats.any fun p => p.1 = k

/-- `if current_category not in self.categories: self.categories[ck] = []`
(markdown_parser.py lines 98-99). -/
def catsAdd (cats : List (String × List MDApplication)) (k : String) :
    List (String × List MDApplication) :=
  if catsHas cats k then cats else cats ++ [(k, [])]

/-- `self.categories[current_category].append(app)` (markdown_parser.py
line 129). -/
def catsPush (cats : List (String × List MDApplication)) (k : String)
    (app : MDApplication) : List (String × List MDApplication) :=
  cats.map fun p => if p.1 = k then (p.1, p.2 ++ [app]) else p

/-- Parser state of `GithubParser.parse_content` (markdown_parser.py lines
68-142): the loop locals (`current_category`, the two section flags) plus
the instance state it mutates (`categories`, `applications`) and a count of
the `logger.warning` calls it performs. -/
structure PState where
  cur : Option String
  inLic : Bool
  inToc : Bool
  cats : List (String × List MDApplication)
  apps : List MDApplication
  warns : Nat
deriving DecidableEq

/-- `line.lower().startswith(h)` (markdown_parser.py lines 81 and 84). -/
def lowStarts (t h : String) : Bool := startsL h.data (pyLower t).data

/-- One iteration of the `GithubParser.parse_content` loop on a stripped
nonempty line (markdown_parser.py lines 80-138). -/
def step (σ : PState) (t : String) : PState :=
  if lowStarts t "# license" || lowStarts t "## license" then
    { σ with inLic := true }
  else if lowStarts t "# table of contents" || lowStarts t "## table of contents" then
    { σ with inToc := true }
  else
    let σ1 := if strStartsWith t "#" then { σ with inLic := false, inToc := false } else σ
    if σ1.inLic || σ1.inToc then σ1
    else
      match matchCategoryHash t.data with
      | some cat =>
        { σ1 with cur := some ⟨cat⟩, cats := catsAdd σ1.cats ⟨cat⟩ }
      | none =>
        match matchApp false t.data with
        | some (n, u, d, lg, _) =>
          if pyTruthyO σ1.cur then
            let dsc := cleanDesc ⟨d⟩
            let app : MDApplication :=
              ⟨⟨n⟩, ⟨u⟩, dsc, σ1.cur.getD "", lg.map (fun g => (⟨g⟩ : String)),
               dockerReady dsc, none, none, none, none⟩
            { σ1 with apps := σ1.apps ++ [app],
                      cats := catsPush σ1.cats (σ1.cur.getD "") app }
          else { σ1 with warns := σ1.warns + 1 }
        | none =>
          if matchLicenseLine t.data || matchTocLine t.data then σ1
          else if strStartsWith t "-" && !(strStartsWith t "---") then
            { σ1 with warns := σ1.warns + 1 }
          else σ1

/-- Strip the line and skip it when empty (markdown_parser.py lines 76-78). -/
def processLine (σ : PState) (line : String) : PState :=
  let t := strStrip line
  if t = "" then σ else step σ t

/-- Fold of `processLine` over a list of lines. -/
def run (σ : PState) : List String → PState
  | [] => σ
  | l :: ls => run (processLine σ l) ls

/-- `GithubParser.parse_content` of the markdown module on a fresh parser
instance (markdown_parser.py lines 68-142). -/
def parse_content (content : String) : PState :=
  run ⟨none, false, false, [], [], 0⟩ (splitLines content)

end MDG

namespace MP

/-! ## `markdown_parser.MarkdownParser` -/

/-- Instance state of `MarkdownParser` relevant to `parse_content`
(markdown_parser.py lines 202-207): `categories`, `applications` and the
`_content_loaded` flag. -/
structure PState where
  cats : List (String × List MDApplication)
  apps : List MDApplication
  warns : Nat
  content_loaded : Bool
deriving DecidableEq

/-- Inner loop state: the locals of `parse_content` plus the instance
state. -/
structure LoopState where
  cur : Option String
  inLic : Bool
  inToc : Bool
  cats : List (String × List MDApplication)
  apps : List MDApplication
  warns : Nat
deriving DecidableEq

/-- One iteration of the `MarkdownParser.parse_content` loop on a stripped
nonempty line (markdown_parser.py lines 235-291).  The differences from the
markdown-module `GithubParser` are the category pattern (`^## \[?([^\]]+)\]?`)
and the combined `if app_match and current_category` condition, which sends
an entry line with no current category to the unparsed-line warning. -/
def step (σ : LoopState) (t : String) : LoopState :=
  if MDG.lowStarts t "# license" || MDG.lowStarts t "## license" then
    { σ with inLic := true }
  else if MDG.lowStarts t "# table of contents" || MDG.lowStarts t "## table of contents" then
    { σ with inToc := true }
  else
    let σ1 := if strStartsWith t "#" then { σ with inLic := false, inToc := false } else σ
    if σ1.inLic || σ1.inToc then σ1
    else
      match matchCategoryMP t.data with
      | some cat =>
        { σ1 with cur := some ⟨cat⟩, cats := MDG.catsAdd σ1.cats ⟨cat⟩ }
      | none =>
        match matchApp false t.data with
        | some (n, u, d, lg, _) =>
          if pyTruthyO σ1.cur then
            let dsc := MDG.cleanDesc ⟨d⟩
            let app : MDApplication :=
              ⟨⟨n⟩, ⟨u⟩, dsc, σ1.cur.getD "", lg.map (fun g => (⟨g⟩ : String)),
               MDG.dockerReady dsc, none, none, none, none⟩
            { σ1 with apps := σ1.apps ++ [app],
                      cats := MDG.catsPush σ1.cats (σ1.cur.getD "") app }
          else if matchLicenseLine t.data || matchTocLine t.data then σ1
          else if strStartsWith t "-" && !(strStartsWith t "---") then
            { σ1 with warns := σ1.warns + 1 }
          else σ1
        | none =>
          if matchLicenseLine t.data || matchTocLine t.data then σ1
          else if strStartsWith t "-" && !(strStartsWith t "---") then
            { σ1 with warns := σ1.warns + 1 }
          else σ1

/-- Strip the line and skip it when empty (markdown_parser.py lines
231-233). -/
def processLine (σ : LoopState) (line : String) : LoopState :=
  let t := strStrip line
  if t = "" then σ else step σ t

/-- Fold of `processLine` over a list of lines. -/
def run (σ : LoopState) : List String → LoopState
  | [] => σ
  | l :: ls => run (processLine σ l) ls

/-- `MarkdownParser.parse_content` (markdown_parser.py lines 221-293): a
no-op when `_content_loaded` is already set; otherwise run the loop over
the lines (appending to the stored instance state) and set
`_content_loaded`. -/
def parse_content (content : String) (σ : PState) : PState :=
  if σ.content_loaded then σ
  else
    let r := run ⟨none, false, false, σ.cats, σ.apps, σ.warns⟩ (splitLines content)
    ⟨r.cats, r.apps, r.warns, true⟩

end MP

namespace SVC

/-! ## `services/parser_service.py` and `utils/caching.py` -/

/-- The service cache file written by `_fetch_and_cache`
(parser_service.py lines 136-141): a bare JSON list of application
dictionaries; validity is judged by the file's modification time
(`_is_cache_valid`, line 98), modelled here alongside the payload. -/
structure CacheFile where
  mtime : Int
  apps : List AppDict
deriving DecidableEq

/-- `ParserService._is_cache_valid` (parser_service.py lines 93-99):
the file exists and `now - mtime < ttl`, strictly. -/
def is_cache_valid (ttl now : Int) (cache : Option CacheFile) : Bool :=
  match cache with
  | none => false
  | some f => now - f.mtime < ttl

/-- `ParserService._load_from_cache` (parser_service.py lines 101-124):
`Application(**app_data)` for each record. -/
def load_from_cache (f : CacheFile) : List Application :=
  f.apps.map Application.from_dict

/-- The TTL comparison of the `cache_result` decorator
(utils/caching.py lines 55-57): `cache_age < ttl`, strictly. -/
def cache_result_valid (ttl now mtime : Int) : Bool := now - mtime < ttl

/-- The two cache files of the pipeline: the scraper cache owned by
`GithubParser` and the service cache owned by `ParserService`. -/
structure World where
  scraper : Option GH.CacheEntry
  service : Option CacheFile
deriving DecidableEq

/-- `GithubParser.fetch_repository` (github_parser.py lines 261-283): on a
fetch failure the `RuntimeError` propagates and nothing is written; on
success the content is parsed and the scraper cache is overwritten. -/
def fetch_repository (probe : String → Bool) (fetch : Except String String)
    (now : Int) (w : World) : Except String (List Application) × World :=
  match fetch with
  | .error e => (.error ("Failed to fetch repository: " ++ e), w)
  | .ok content =>
    let apps := GH.parse_content probe content
    (.ok apps, { w with scraper := some (GH.save_cache now apps) })

/-- `GithubParser.load_applications` (github_parser.py lines 285-297): try
the scraper cache, else fetch; the enclosing `except` turns any error into
a warning and an empty list. -/
def load_applications (probe : String → Bool) (fetch : Except String String)
    (now : Int) (w : World) : List Application × World :=
  match GH.load_cache GH.cache_expiry now w.scraper with
  | some apps => (apps, w)
  | none =>
    match fetch_repository probe fetch now w with
    | (.ok apps, w') => (apps, w')
    | (.error _, w') => ([], w')

/-- `ParserService._fetch_and_cache` (parser_service.py lines 126-154):
delegate to the parser's `load_applications`, then write whatever list came
back to the service cache file and return it. -/
def fetch_and_cache (probe : String → Bool) (fetch : Except String String)
    (now : Int) (w : World) : Except String (List Application) × World :=
  let r := load_applications probe fetch now w
  (.ok r.1, { r.2 with service := some ⟨now, r.1.map Application.to_dict⟩ })

/-- `ParserService.get_applications` (parser_service.py lines 23-42). -/
def get_applications (force_refresh : Bool) (ttl : Int) (probe : String → Bool)
    (fetch : Except String String) (now : Int) (w : World) :
    Except String (List Application) × World :=
  if !force_refresh && is_cache_valid ttl now w.service then
    match w.service with
    | some f => (.ok (load_from_cache f), w)
    | none => fetch_and_cache probe fetch now w
  else fetch_and_cache probe fetch now w

end SVC

/-! ## Concrete fixtures used by witnesses and counterexamples -/

/-- A probe that reports no Docker files (the `_check_docker_availability`
outcome assumed by the tests and by several claims). -/
def probeNone : String → Bool := fun _ => false

/-- A document with one category and one entry. -/
def docOne : String := "### Cat\n- [A](http://a.com) - First app."

/-- A document whose single entry has a description ending in two periods. -/
def docDots : String := "### Cat\n- [A](http://a.com) - Desc.."

/-- A document with an entry after a license section header. -/
def docLicense : String :=
  "### Cat\n- [A](http://a.com) - Tool one.\n## License\n- [B](http://b.com) - Tool two."

/-- A document consisting of a single application-entry line and no category
header. -/
def docOrphan : String := "- [A](http://a.com) - Tool."

/-- A document whose single entry carries a GitHub-Container-Registry
reference, a language tag and a license tag. -/
def docGhcr : String :=
  "### Cat\n- [A](https://github.com/acme/app) - Ships a Docker image, see ghcr.io/acme/app `Go` [MIT]"

/-- The application parsed from `docGhcr`. -/
def appGhcr : Application :=
  ⟨"A", "Ships a Docker image, see ghcr.io/acme/app", "Cat", some "Go", some "MIT",
   true, some "ghcr.io/acme/app", some "https://github.com/acme/app", none⟩

/-- A sample application with a mix of present and absent optional fields. -/
def appSample : Application :=
  ⟨"App", "A tool", "Cat", some "Python", none, true, none, some "http://a.com", none⟩

/-! ## Helper lemmas -/

@[simp] theorem data_mk (l : List Char) : (⟨l⟩ : String).data = l := rfl

theorem startsL_nil (l : List Char) : startsL [] l = true := rfl

theorem startsL_cons_ne {p c : Char} (ps cs : List Char) (h : p ≠ c) :
    startsL (p :: ps) (c :: cs) = false := by
  simp [startsL, h]

theorem dropWhile_dropWhile (p : Char → Bool) (l : List Char) :
    List.dropWhile p (List.dropWhile p l) = List.dropWhile p l := by
  induction l with
  | nil => rfl
  | cons c t ih =>
    by_cases hc : p c = true
    · simp [List.dropWhile_cons, hc, ih]
    · simp [List.dropWhile_cons, hc]

theorem rstripDots_idem (s : String) : rstripDots (rstripDots s) = rstripDots s := by
  unfold rstripDots
  simp [dropWhile_dropWhile]

/-- The head of a nonempty prefix of `m` is the head of `m`. -/
theorem head_of_prefix {x m : List Char} (h : x <+: m) {c : Char} {t : List Char}
    (hx : x = c :: t) : ∃ r, m = c :: r := by
  subst hx
  obtain ⟨s, hs⟩ := h
  exact ⟨t ++ s, by rw [← hs]; rfl⟩

/-- `dropWhile` leaves a list alone when its head (if any) fails the
predicate. -/
theorem dropWhile_of_head_false {p : Char → Bool} {c : Char} {t : List Char}
    (h : p c = false) : List.dropWhile p (c :: t) = c :: t := by
  simp [List.dropWhile_cons, h]

/-- The head of `dropWhile p l` fails `p`. -/
theorem head_dropWhile_false (p : Char → Bool) (l : List Char) {c : Char}
    {t : List Char} (h : List.dropWhile p l = c :: t) : p c = false := by
  induction l with
  | nil => simp at h
  | cons a r ih =>
    by_cases ha : p a = true
    · rw [List.dropWhile_cons, if_pos ha] at h
      exact ih h
    · rw [List.dropWhile_cons, if_neg ha] at h
      cases h
      simpa using ha

/-- A Python-stripped list is a fixpoint of left whitespace trimming. -/
theorem trimL_pyStrip (l : List Char) : trimL (pyStrip l) = pyStrip l := by
  unfold trimL pyStrip
  set m := List.dropWhile chIsSpace l with hm
  cases hx : (List.dropWhile chIsSpace m.reverse).reverse with
  | nil => simp
  | cons c t =>
    have h0 : List.dropWhile chIsSpace m.reverse <:+ m.reverse :=
      List.dropWhile_suffix _
    have hpre : (List.dropWhile chIsSpace m.reverse).reverse <+: m := by
      have h1 := List.reverse_prefix.mpr h0
      simpa using h1
    obtain ⟨r, hr⟩ := head_of_prefix hpre hx
    have hc : chIsSpace c = false :=
      head_dropWhile_false chIsSpace l (by rw [← hm]; exact hr)
    exact dropWhile_of_head_false hc

/-- `strStrip` output as a character list is a fixpoint of `trimL`. -/
theorem trimL_strStrip (s : String) : trimL (strStrip s).data = (strStrip s).data := by
  unfold strStrip
  simp [trimL_pyStrip]

/-- A successful application match forces the trimmed input to start with a
dash. -/
theorem matchApp_head {br : Bool} {l : List Char} (h : (matchApp br l).isSome = true) :
    ∃ r, trimL l = '-' :: r := by
  cases ht : trimL l with
  | nil => unfold matchApp at h; rw [ht] at h; simp at h
  | cons c r =>
    by_cases hc : c = '-'
    · exact ⟨r, by rw [hc]⟩
    · unfold matchApp at h; rw [ht] at h; simp [hc] at h

theorem from_dict_to_dict (a : Application) :
    Application.from_dict (Application.to_dict a) = a := rfl

/-! ## Claims -/

/-- C10: searching a catalog with the empty-string query returns every
application of the catalog in catalog order, because the empty string is a
substring of every searchable field, making `matches_search` an identity
filter. -/
theorem c10_empty_query_returns_all (apps : List Application) :
    GH.search_applications "" apps = apps := by
  unfold GH.search_applications
  apply List.filter_eq_self.mpr
  intro a _
  unfold Application.matches_search
  have hq : (pyLower "").data = [] := rfl
  simp only [hq, List.any_cons, List.any_nil]
  have hc : ∀ f : String, containsL f.data [] = true := by
    intro f
    unfold containsL
    rw [startsL_nil]
    simp
  simp [hc]

/-- C5: saving a list of applications to the scraper cache and loading it
back within the TTL returns a list equal to the one saved, field for field
(optional fields included) and in the same order. -/
theorem c5_cache_round_trip (apps : List Application) (t now : Int)
    (h : now - t < GH.cache_expiry) :
    GH.load_cache GH.cache_expiry now (some (GH.save_cache t apps)) = some apps := by
  simp only [GH.load_cache, GH.save_cache]
  have hgt : ¬(now - t > GH.cache_expiry) := by omega
  rw [if_neg hgt]
  rw [List.map_map]
  congr 1
  have hid : ∀ a ∈ apps, (Application.from_dict ∘ Application.to_dict) a = id a :=
    fun a _ => from_dict_to_dict a
  rw [List.map_congr_left hid, List.map_id]

/-- Witness for C5 at a concrete application list and concrete times. -/
theorem c5_cache_round_trip_witness :
    (10 : Int) - 0 < GH.cache_expiry ∧
    GH.load_cache GH.cache_expiry 10 (some (GH.save_cache 0 [appSample])) = some [appSample] :=
  ⟨by decide, c5_cache_round_trip [appSample] 0 10 (by decide)⟩

/-- C2 counterexample: a scraper-cache entry whose age is exactly the TTL
(86400 seconds) is still served by `GithubParser._load_cache` (which tests
`age > ttl`), while the claim says `load` must treat it as a miss; the
service-layer check `_is_cache_valid` does treat it as expired at the same
age. -/
theorem c2_exact_ttl_counterexample :
    GH.load_cache GH.cache_expiry 86400 (some ⟨0, []⟩) = some [] ∧
    SVC.is_cache_valid GH.cache_expiry 86400 (some ⟨0, []⟩) = false := by
  constructor
  · rfl
  · rfl

/-- C2 amended: the service-layer `_is_cache_valid` and the `cache_result`
decorator use strict less-than, so an entry whose age equals the TTL is
expired there; but `GithubParser._load_cache` tests `age > ttl`, so an entry
exactly `ttl` old is still valid for the scraper cache. -/
theorem c2_ttl_boundary (ttl t now : Int) (ds : List AppDict) (h : now - t = ttl) :
    SVC.is_cache_valid ttl now (some ⟨t, ds⟩) = false ∧
    SVC.cache_result_valid ttl now t = false ∧
    GH.load_cache ttl now (some ⟨t, ds⟩) = some (ds.map Application.from_dict) := by
  refine ⟨?_, ?_, ?_⟩
  · unfold SVC.is_cache_valid
    simp only [h]
    simp
  · unfold SVC.cache_result_valid
    simp only [h]
    simp
  · simp only [GH.load_cache]
    have hgt : ¬(now - t > ttl) := by omega
    rw [if_neg hgt]

/-- Witness for C2 at the concrete boundary age. -/
theorem c2_ttl_boundary_witness :
    (86400 : Int) - 0 = 86400 ∧
    (SVC.is_cache_valid 86400 86400 (some ⟨0, [appSample.to_dict]⟩) = false ∧
     SVC.cache_result_valid 86400 86400 0 = false ∧
     GH.load_cache 86400 86400 (some ⟨0, [appSample.to_dict]⟩)
       = some ([appSample.to_dict].map Application.from_dict)) :=
  ⟨by decide, c2_ttl_boundary 86400 0 86400 [appSample.to_dict] (by decide)⟩

/-- C4: a description containing the keyword `docker` in any letter case,
with no Docker-Hub or GHCR reference in the description, a repository URL
not containing `dockerfile`, and a repository probe that finds no Docker
files, classifies as `docker_ready = true` with `docker_url = none`. -/
theorem c4_keyword_only_ready_no_url (probe : String → Bool) (desc url : String)
    (h1 : strContains (pyLower desc) "docker" = true)
    (h2 : GH.searchHub desc.data = none)
    (h3 : GH.searchGhcr desc.data = none)
    (h4 : strContains (pyLower url) "dockerfile" = false)
    (h5 : probe url = false) :
    GH.classify probe desc url = (true, none) := by
  have hext : GH.extract_docker_url probe desc url = none := by
    unfold GH.extract_docker_url
    rw [h2, h3]
    simp [h4, h5]
  have hready : GH.is_docker_ready probe desc url = true := by
    unfold GH.is_docker_ready
    unfold GH.docker_keywords
    simp [h1]
  unfold GH.classify
  rw [hready, hext]
  simp

/-- Witness for C4 at a concrete description and URL. -/
theorem c4_keyword_only_ready_no_url_witness :
    (strContains (pyLower "Runs in Docker") "docker" = true ∧
     GH.searchHub ("Runs in Docker" : String).data = none ∧
     GH.searchGhcr ("Runs in Docker" : String).data = none ∧
     strContains (pyLower "https://example.com/app") "dockerfile" = false ∧
     probeNone "https://example.com/app" = false) ∧
    GH.classify probeNone "Runs in Docker" "https://example.com/app" = (true, none) :=
  ⟨⟨by decide, by decide, by decide, by decide, rfl⟩,
   c4_keyword_only_ready_no_url probeNone "Runs in Docker" "https://example.com/app"
     (by decide) (by decide) (by decide) (by decide) rfl⟩

/-- C1 counterexample: with both caches empty and the network fetch failing,
`getApplications(forceRefresh=true)` returns `ok []` instead of propagating
the error, and it persists the empty list to the service cache — the
`except` of `GithubParser.load_applications` swallows the fetch error. -/
theorem c1_fetch_failure_counterexample :
    (SVC.get_applications true 3600 probeNone (Except.error "connection refused") 0
       ⟨none, none⟩).1 = Except.ok ([] : List Application) ∧
    (SVC.get_applications true 3600 probeNone (Except.error "connection refused") 0
       ⟨none, none⟩).2.service = some ⟨0, []⟩ := by
  constructor
  · rfl
  · rfl

/-- C1 amended: when the scraper cache misses and the fetch fails,
`fetch_repository` propagates the error and persists nothing; but
`load_applications` swallows the error into an empty list, which
`_fetch_and_cache` persists to the service cache and returns as a
successful result, so `getApplications` neither raises nor leaves the
caches untouched. -/
theorem c1_fetch_failure_swallowed (probe : String → Bool) (e : String)
    (ttl now : Int) (w : SVC.World)
    (h : GH.load_cache GH.cache_expiry now w.scraper = none) :
    SVC.fetch_repository probe (Except.error e) now w
      = (Except.error ("Failed to fetch repository: " ++ e), w) ∧
    SVC.get_applications true ttl probe (Except.error e) now w
      = (Except.ok [], { w with service := some ⟨now, []⟩ }) := by
  constructor
  · rfl
  · unfold SVC.get_applications
    simp only [Bool.not_true, Bool.false_and, if_neg (Bool.false_ne_true)]
    unfold SVC.fetch_and_cache SVC.load_applications
    rw [h]
    rfl

/-- Witness for C1 at concrete caches, time and error. -/
theorem c1_fetch_failure_swallowed_witness :
    GH.load_cache GH.cache_expiry 0 (SVC.World.mk none none).scraper = none ∧
    (SVC.fetch_repository probeNone (Except.error "refused") 0 ⟨none, none⟩
       = (Except.error ("Failed to fetch repository: " ++ "refused"), ⟨none, none⟩) ∧
     SVC.get_applications true 3600 probeNone (Except.error "refused") 0 ⟨none, none⟩
       = (Except.ok [], { SVC.World.mk none none with service := some ⟨0, []⟩ })) :=
  ⟨rfl, c1_fetch_failure_swallowed probeNone "refused" 3600 0 ⟨none, none⟩ rfl⟩

/-- C6 counterexample: re-invoking `GithubParser.parse_content`
(github_parser.py) on an instance that already holds results re-parses the
new document and replaces the stored sequence — parsing a nonempty document
and then an empty one leaves the store empty, not identical to the first
result. -/
theorem c6_reparse_counterexample :
    GH.parseAndStore probeNone (GH.parseAndStore probeNone [] docOne) "" = [] ∧
    GH.parseAndStore probeNone [] docOne ≠ [] := by
  constructor
  · rfl
  · intro h
    have : (GH.parseAndStore probeNone [] docOne).length = 1 := by rfl
    rw [h] at this
    simp at this

/-- C6 amended: for `MarkdownParser.parse_content` the claim holds — a
second invocation with any document is a no-op because the first invocation
sets `_content_loaded`; `github_parser.GithubParser.parse_content`, by
contrast, always re-parses and overwrites the stored list. -/
theorem c6_mp_parse_idempotent (σ : MP.PState) (d1 d2 : String) :
    MP.parse_content d2 (MP.parse_content d1 σ) = MP.parse_content d1 σ := by
  unfold MP.parse_content
  by_cases h : σ.content_loaded
  · simp [h]
  · simp [h]

/-- The Docker-URL/readiness invariant is preserved by the `GithubParser`
parse loop: every application appended by `processLine` has
`docker_url = none` unless `docker_ready` is true. -/
theorem gh_run_docker_inv (probe : String → Bool) (ls : List String)
    (σ : GH.PState) (h : ∀ a ∈ σ.apps, a.docker_url ≠ none → a.docker_ready = true) :
    ∀ a ∈ (GH.run probe σ ls).apps, a.docker_url ≠ none → a.docker_ready = true := by
  induction ls generalizing σ with
  | nil => exact h
  | cons l ls ih =>
    refine ih _ ?_
    intro a ha
    simp only [GH.processLine] at ha
    split at ha
    · exact h a ha
    · split at ha
      · exact h a ha
      · split at ha
        · split at ha
          · rename_i n u d lg lc heq
            simp only [List.mem_append, List.mem_singleton] at ha
            rcases ha with ha | ha
            · exact h a ha
            · subst ha
              intro hurl
              by_cases hr : GH.is_docker_ready probe d u = true
              · simpa using hr
              · exfalso
                apply hurl
                simp [hr]
          · exact h a ha
        · exact h a ha

/-- C9: for every application produced by `parse_content`, a non-null
`docker_url` implies `docker_ready`, and the invariant carries over to the
results of `search_applications`, `get_applications_by_category` and
`get_docker_ready_applications`, which only filter the parsed snapshot. -/
theorem c9_docker_url_implies_ready (probe : String → Bool) (content q cat : String)
    (a : Application) :
    (a ∈ GH.parse_content probe content → a.docker_url ≠ none → a.docker_ready = true) ∧
    (a ∈ GH.search_applications q (GH.parse_content probe content) →
       a.docker_url ≠ none → a.docker_ready = true) ∧
    (a ∈ GH.get_applications_by_category cat (GH.parse_content probe content) →
       a.docker_url ≠ none → a.docker_ready = true) ∧
    (a ∈ GH.get_docker_ready_applications (GH.parse_content probe content) →
       a.docker_url ≠ none → a.docker_ready = true) := by
  have hmain : ∀ a ∈ GH.parse_content probe content,
      a.docker_url ≠ none → a.docker_ready = true := by
    unfold GH.parse_content
    exact gh_run_docker_inv probe _ _ (by intro a ha; simp at ha)
  refine ⟨hmain a, ?_, ?_, ?_⟩
  · intro ha
    exact hmain a (List.mem_of_mem_filter ha)
  · intro ha
    exact hmain a (List.mem_of_mem_filter ha)
  · intro ha
    exact hmain a (List.mem_of_mem_filter ha)

/-- Witness for C9: the application parsed from `docGhcr` has a non-null
`docker_url`, lies in the parse result and in the three filtered views, and
the theorem yields `docker_ready = true` in each case. -/
theorem c9_docker_url_implies_ready_witness :
    appGhcr.docker_ready = true ∧ appGhcr.docker_ready = true ∧
    appGhcr.docker_ready = true ∧ appGhcr.docker_ready = true := by
  have h := c9_docker_url_implies_ready probeNone docGhcr "" "Cat" appGhcr
  have hmem : appGhcr ∈ GH.parse_content probeNone docGhcr := by
    rw [show GH.parse_content probeNone docGhcr = [appGhcr] from rfl]
    exact List.mem_singleton.mpr rfl
  have hmem2 : appGhcr ∈ GH.search_applications "" (GH.parse_content probeNone docGhcr) := by
    rw [show GH.search_applications "" (GH.parse_content probeNone docGhcr)
          = [appGhcr] from rfl]
    exact List.mem_singleton.mpr rfl
  have hmem3 : appGhcr ∈ GH.get_applications_by_category "Cat"
      (GH.parse_content probeNone docGhcr) := by
    rw [show GH.get_applications_by_category "Cat" (GH.parse_content probeNone docGhcr)
          = [appGhcr] from rfl]
    exact List.mem_singleton.mpr rfl
  have hmem4 : appGhcr ∈ GH.get_docker_ready_applications
      (GH.parse_content probeNone docGhcr) := by
    rw [show GH.get_docker_ready_applications (GH.parse_content probeNone docGhcr)
          = [appGhcr] from rfl]
    exact List.mem_singleton.mpr rfl
  have hurl : appGhcr.docker_url ≠ none := by
    intro hcon
    simp [appGhcr] at hcon
  exact ⟨h.1 hmem hurl, h.2.1 hmem2 hurl, h.2.2.1 hmem3 hurl, h.2.2.2 hmem4 hurl⟩

/-- C3 counterexample: on a description ending in two periods,
`parse_application_line` stores `"Desc"` — `strip().rstrip('.')` removes
every trailing period — whereas the claim predicts `"Desc."` (all but the
last period kept). -/
theorem c3_double_period_counterexample :
    MP.parse_application_line "- [A](http://a.com) - Desc.."
      = some ("A", "http://a.com", "Desc", none, none) ∧
    ("Desc" : String) ≠ "Desc." := by
  constructor
  · rfl
  · decide

/-- Every description stored by `parse_application_line` is a fixpoint of
trailing-period stripping. -/
theorem gh_run_desc_stripped (probe : String → Bool) (ls : List String)
    (σ : GH.PState) (h : ∀ a ∈ σ.apps, rstripDots a.description = a.description) :
    ∀ a ∈ (GH.run probe σ ls).apps, rstripDots a.description = a.description := by
  induction ls generalizing σ with
  | nil => exact h
  | cons l ls ih =>
    refine ih _ ?_
    intro a ha
    simp only [GH.processLine] at ha
    split at ha
    · exact h a ha
    · split at ha
      · exact h a ha
      · split at ha
        · split at ha
          · rename_i n u d lg lc heq
            simp only [List.mem_append, List.mem_singleton] at ha
            rcases ha with ha | ha
            · exact h a ha
            · subst ha
              simp only []
              unfold MP.parse_application_line at heq
              rw [Option.map_eq_some'] at heq
              obtain ⟨r, _, hf⟩ := heq
              have hd : d = rstripDots (strStrip ⟨r.2.2.1⟩) := by
                have := congrArg (fun p => p.2.2.1) hf
                simpa using this.symm
              rw [hd, rstripDots_idem]
          · exact h a ha
        · exact h a ha

/-- C3 amended: for every application-entry line parsed on the
`github_parser` path (the one feeding the cache and the service), the stored
description is the trimmed description with ALL trailing periods removed —
so it never ends in a period and a description ending in several periods
loses every one of them, not all but the last.  (The `parse_content`
methods of the markdown module strip exactly one, as the claim says.) -/
theorem c3_description_fully_stripped (probe : String → Bool) (content : String)
    (a : Application) (ha : a ∈ GH.parse_content probe content) :
    rstripDots a.description = a.description := by
  revert ha
  unfold GH.parse_content
  intro ha
  exact gh_run_desc_stripped probe _ _ (by intro a ha; simp at ha) a ha

/-- Witness for C3 at the concrete two-period document. -/
theorem c3_description_fully_stripped_witness :
    (⟨"A", "Desc", "Cat", none, none, false, none, some "http://a.com", none⟩ : Application)
        ∈ GH.parse_content probeNone docDots ∧
    rstripDots (Application.mk "A" "Desc" "Cat" none none false none
        (some "http://a.com") none).description
      = (Application.mk "A" "Desc" "Cat" none none false none
        (some "http://a.com") none).description := by
  have hmem : (⟨"A", "Desc", "Cat", none, none, false, none, some "http://a.com", none⟩ :
      Application) ∈ GH.parse_content probeNone docDots := by
    rw [show GH.parse_content probeNone docDots
          = [⟨"A", "Desc", "Cat", none, none, false, none, some "http://a.com", none⟩]
        from rfl]
    exact List.mem_singleton.mpr rfl
  exact ⟨hmem, c3_description_fully_stripped probeNone docDots _ hmem⟩

/-- C7 counterexample: `github_parser.GithubParser.parse_content` has no
license/table-of-contents section tracking — an application entry following
a `## License` header is still parsed and appended (the claim requires every
line after the section header and before the next `#`-header to be
ignored; here the entry line `- [B]…` follows the header directly). -/
theorem c7_github_ignores_sections_counterexample :
    (GH.parse_content probeNone docLicense).map (fun a => a.name) = ["A", "B"] := by
  rfl

/-- C7 amended: the section-skipping behavior holds for the markdown-module
parsers — while `in_license_section` or `in_toc_section` is set, a line that
does not start with `#` neither changes the current category nor appends an
application; `github_parser.GithubParser.parse_content` has no section
state at all and keeps appending entries after such headers. -/
theorem c7_mdg_section_lines_inert (σ : MDG.PState) (line : String)
    (h1 : σ.inLic = true ∨ σ.inToc = true)
    (h2 : strStartsWith (strStrip line) "#" = false) :
    (MDG.processLine σ line).apps = σ.apps ∧ (MDG.processLine σ line).cur = σ.cur := by
  have hor : (σ.inLic || σ.inToc) = true := by
    rcases h1 with h | h <;> simp [h]
  simp only [MDG.processLine]
  by_cases ht : strStrip line = ""
  · simp [ht]
  · rw [if_neg ht]
    unfold MDG.step
    by_cases b1 : (MDG.lowStarts (strStrip line) "# license"
        || MDG.lowStarts (strStrip line) "## license") = true
    · simp [b1]
    · by_cases b2 : (MDG.lowStarts (strStrip line) "# table of contents"
          || MDG.lowStarts (strStrip line) "## table of contents") = true
      · simp [b1, b2]
      · simp [b1, b2, h2, hor]

/-- Witness for C7: inside the license section, a well-formed application
entry line leaves the applications and the category untouched. -/
theorem c7_mdg_section_lines_inert_witness :
    ((MDG.PState.mk (some "X") true false [] [] 0).inLic = true ∨
      (MDG.PState.mk (some "X") true false [] [] 0).inToc = true) ∧
    (strStartsWith (strStrip "- [A](http://a.com) - Docker tool.") "#" = false) ∧
    ((MDG.processLine ⟨some "X", true, false, [], [], 0⟩
        "- [A](http://a.com) - Docker tool.").apps
        = (MDG.PState.mk (some "X") true false [] [] 0).apps ∧
     (MDG.processLine ⟨some "X", true, false, [], [], 0⟩
        "- [A](http://a.com) - Docker tool.").cur
        = (MDG.PState.mk (some "X") true false [] [] 0).cur) :=
  ⟨Or.inl rfl, by decide,
   c7_mdg_section_lines_inert ⟨some "X", true, false, [], [], 0⟩
     "- [A](http://a.com) - Docker tool." (Or.inl rfl) (by decide)⟩

theorem mdg_run_append (σ : MDG.PState) (a b : List String) :
    MDG.run σ (a ++ b) = MDG.run (MDG.run σ a) b := by
  induction a generalizing σ with
  | nil => rfl
  | cons l ls ih => simp [MDG.run, ih]

/-- A lower-cased line beginning with a dash cannot begin with a
section-header phrase. -/
theorem lowStarts_false_of_head_ne (t h : String) {r : List Char}
    (ht : t.data = '-' :: r) {c : Char} (hh : h.data.head? = some c)
    (hne : c ≠ '-') : MDG.lowStarts t h = false := by
  unfold MDG.lowStarts
  cases hd : h.data with
  | nil => rw [hd] at hh; simp at hh
  | cons c' rs =>
    rw [hd] at hh
    simp only [List.head?_cons, Option.some.injEq] at hh
    have hpy : (pyLower t).data = '-' :: r.map lowerChar := by
      unfold pyLower
      rw [data_mk, ht]
      simp [List.map_cons, show lowerChar '-' = '-' from by decide]
    rw [hpy]
    exact startsL_cons_ne _ _ (by rw [hh]; exact hne)

/-- The application pattern fails on any line whose trimmed head is not a
dash. -/
theorem matchApp_none_of_head_ne (br : Bool) {l : List Char} {c : Char}
    {r : List Char} (ht : trimL l = c :: r) (hc : c ≠ '-') :
    matchApp br l = none := by
  unfold matchApp
  rw [ht]
  simp [hc]

/-- The hash-category pattern fails on any line whose head is not a hash. -/
theorem matchCategoryHash_none_of_head_ne {l : List Char} {c : Char}
    {r : List Char} (ht : l = c :: r) (hc : c ≠ '#') :
    matchCategoryHash l = none := by
  rw [ht]
  unfold matchCategoryHash
  simp [hc]

/-- The license-line pattern fails on any line whose trimmed head is not a
dash. -/
theorem matchLicenseLine_false_of_head_ne {l : List Char} {c : Char}
    {r : List Char} (ht : trimL l = c :: r) (hc : c ≠ '-') :
    matchLicenseLine l = false := by
  unfold matchLicenseLine
  rw [ht]
  simp [hc]

/-- The TOC-line pattern fails on any line whose trimmed head is not a
dash. -/
theorem matchTocLine_false_of_head_ne {l : List Char} {c : Char}
    {r : List Char} (ht : trimL l = c :: r) (hc : c ≠ '-') :
    matchTocLine l = false := by
  unfold matchTocLine
  rw [ht]
  simp [hc]

/-- A nonempty stripped line is a nonempty string. -/
theorem strStrip_ne_empty {l : String} {c : Char} {r : List Char}
    (ht : (strStrip l).data = c :: r) : strStrip l ≠ "" := by
  intro hcon
  rw [hcon] at ht
  have : ("" : String).data = [] := rfl
  rw [this] at ht
  cases ht

/-- One orphan application-entry line (no category seen yet, outside the
special sections) only increments the warning counter of the
markdown-module `GithubParser` loop (markdown_parser.py lines 103-106). -/
theorem mdg_orphan_step (σ : MDG.PState) (l : String)
    (hcur : σ.cur = none) (hlic : σ.inLic = false) (htoc : σ.inToc = false)
    (happ : (matchApp false (strStrip l).data).isSome = true) :
    MDG.processLine σ l = { σ with warns := σ.warns + 1 } := by
  obtain ⟨r, hr0⟩ := matchApp_head happ
  have ht : (strStrip l).data = '-' :: r := by rw [← trimL_strStrip l]; exact hr0
  have htne : strStrip l ≠ "" := strStrip_ne_empty ht
  obtain ⟨v, hv⟩ := Option.isSome_iff_exists.mp happ
  obtain ⟨n, u, d, lg, lc⟩ := v
  have hhash : strStartsWith (strStrip l) "#" = false := by
    unfold strStartsWith
    rw [show ("#" : String).data = ['#'] from rfl, ht]
    exact startsL_cons_ne _ _ (by decide)
  simp only [MDG.processLine, if_neg htne]
  unfold MDG.step
  rw [lowStarts_false_of_head_ne _ "# license" ht rfl (by decide),
      lowStarts_false_of_head_ne _ "## license" ht rfl (by decide),
      lowStarts_false_of_head_ne _ "# table of contents" ht rfl (by decide),
      lowStarts_false_of_head_ne _ "## table of contents" ht rfl (by decide),
      hhash]
  simp only [Bool.or_self, Bool.false_eq_true, if_false, ite_false]
  rw [hlic, htoc]
  simp only [Bool.or_self, Bool.false_eq_true, if_false]
  rw [matchCategoryHash_none_of_head_ne ht (by decide), hv]
  rw [hcur]
  rfl

/-- Folding orphan entry lines from a category-less, section-less state
adds one warning per line and changes nothing else. -/
theorem mdg_orphan_run (pre : List String) (σ : MDG.PState)
    (hcur : σ.cur = none) (hlic : σ.inLic = false) (htoc : σ.inToc = false)
    (hpre : ∀ l ∈ pre, (matchApp false (strStrip l).data).isSome = true) :
    MDG.run σ pre = { σ with warns := σ.warns + pre.length } := by
  induction pre generalizing σ with
  | nil =>
    show σ = { σ with warns := σ.warns + 0 }
    cases σ
    simp
  | cons l ls ih =>
    show MDG.run (MDG.processLine σ l) ls = _
    rw [mdg_orphan_step σ l hcur hlic htoc (hpre l (List.mem_cons_self l ls))]
    rw [ih { σ with warns := σ.warns + 1 } hcur hlic htoc
        (fun x hx => hpre x (List.mem_cons_of_mem l hx))]
    simp only [List.length_cons]
    congr 1
    omega

/-- A blank line or a `#`-headed line never changes the applications or the
warning count of the markdown-module `GithubParser` loop. -/
theorem mdg_header_step_inert (σ : MDG.PState) (l : String)
    (hl : strStrip l = "" ∨ (strStrip l).data.head? = some '#') :
    (MDG.processLine σ l).apps = σ.apps ∧ (MDG.processLine σ l).warns = σ.warns := by
  rcases hl with h | h
  · simp [MDG.processLine, h]
  · obtain ⟨r, hr⟩ : ∃ r, (strStrip l).data = '#' :: r := by
      cases hd : (strStrip l).data with
      | nil => rw [hd] at h; simp at h
      | cons c rs =>
        rw [hd] at h
        simp only [List.head?_cons, Option.some.injEq] at h
        exact ⟨rs, by rw [h]⟩
    have htrim : trimL (strStrip l).data = '#' :: r := by
      rw [trimL_strStrip, hr]
    have htne : strStrip l ≠ "" := strStrip_ne_empty hr
    have hApp := matchApp_none_of_head_ne false htrim (by decide)
    have hLic := matchLicenseLine_false_of_head_ne htrim (by decide)
    have hToc := matchTocLine_false_of_head_ne htrim (by decide)
    have hd2 : strStartsWith (strStrip l) "-" = false := by
      unfold strStartsWith
      rw [show ("-" : String).data = ['-'] from rfl, hr]
      exact startsL_cons_ne _ _ (by decide)
    simp only [MDG.processLine, if_neg htne, MDG.step, hApp, hLic, hToc, hd2]
    split
    · exact ⟨rfl, rfl⟩
    · split
      · exact ⟨rfl, rfl⟩
      · split
        · split
          · exact ⟨rfl, rfl⟩
          · cases matchCategoryHash (strStrip l).data <;> exact ⟨rfl, rfl⟩
        · split
          · exact ⟨rfl, rfl⟩
          · cases matchCategoryHash (strStrip l).data <;> exact ⟨rfl, rfl⟩

/-- Folding blank or `#`-headed lines preserves applications and warning
count. -/
theorem mdg_header_run_inert (post : List String) (σ : MDG.PState)
    (hpost : ∀ l ∈ post, strStrip l = "" ∨ (strStrip l).data.head? = some '#') :
    (MDG.run σ post).apps = σ.apps ∧ (MDG.run σ post).warns = σ.warns := by
  induction post generalizing σ with
  | nil => exact ⟨rfl, rfl⟩
  | cons l ls ih =>
    show ((MDG.run (MDG.processLine σ l) ls).apps = _ ∧ _)
    have hstep := mdg_header_step_inert σ l (hpost l (List.mem_cons_self l ls))
    have hrest := ih (MDG.processLine σ l) (fun x hx => hpost x (List.mem_cons_of_mem l hx))
    exact ⟨hrest.1.trans hstep.1, hrest.2.trans hstep.2⟩

/-- C8 counterexample: `github_parser.GithubParser.parse_content` drops an
entry line that precedes any category header silently — the catalog is
empty, as the claim says, but the parse records zero diagnostic warnings
where the claim requires one per dropped line. -/
theorem c8_github_silent_counterexample :
    GH.parse_content probeNone docOrphan = [] ∧
    GH.parse_diagnostics probeNone docOrphan = 0 := by
  exact ⟨rfl, rfl⟩

/-- C8 amended: in the markdown-module `GithubParser`, a document whose
application-entry lines all precede any category header (entry lines first,
then only blank or `#`-headed lines) parses to an empty catalog with
exactly one diagnostic warning per dropped entry line, and the dropped
entries are never stored; `github_parser.GithubParser.parse_content` also
stores nothing but emits no diagnostics at all. -/
theorem c8_orphan_entries_dropped (pre post : List String)
    (hpre : ∀ l ∈ pre, (matchApp false (strStrip l).data).isSome = true)
    (hpost : ∀ l ∈ post, strStrip l = "" ∨ (strStrip l).data.head? = some '#') :
    (MDG.run ⟨none, false, false, [], [], 0⟩ (pre ++ post)).apps = [] ∧
    (MDG.run ⟨none, false, false, [], [], 0⟩ (pre ++ post)).warns = pre.length := by
  rw [mdg_run_append]
  rw [mdg_orphan_run pre _ rfl rfl rfl hpre]
  have h2 := mdg_header_run_inert post { MDG.PState.mk none false false [] [] 0 with
    warns := 0 + pre.length } hpost
  refine ⟨h2.1.trans rfl, h2.2.trans ?_⟩
  simp

/-- Witness for C8 at a one-entry, one-trailing-header document. -/
theorem c8_orphan_entries_dropped_witness :
    (∀ l ∈ ["- [A](http://a.com) - Tool."],
      (matchApp false (strStrip l).data).isSome = true) ∧
    (∀ l ∈ ["## Misc"], strStrip l = "" ∨ (strStrip l).data.head? = some '#') ∧
    ((MDG.run ⟨none, false, false, [], [], 0⟩
        (["- [A](http://a.com) - Tool."] ++ ["## Misc"])).apps = [] ∧
     (MDG.run ⟨none, false, false, [], [], 0⟩
        (["- [A](http://a.com) - Tool."] ++ ["## Misc"])).warns
       = (["- [A](http://a.com) - Tool."] : List String).length) :=
  ⟨by decide, by decide,
   c8_orphan_entries_dropped ["- [A](http://a.com) - Tool."] ["## Misc"]
     (by decide) (by decide)⟩

end EDD
